import Mathlib

/-!
# Verification of the holodeck shared-memory client (`holodeck/holodeckclient.py`)

A shallow embedding of `HolodeckClient`: the session coordinator that owns a
registry of shared-memory buffers (`self._memory`) and a pair of named
cross-process semaphores, with platform-specific backends installed at
construction time (`__windows_init__` / `__posix_init__`).

The `Shmem` class (`holodeck/shmem.py`) is not part of the provided sources;
definitions that depend on it are spec-modelled and say so in their doc
comments.  Error values follow the spec's taxonomy as names for the concrete
exceptions the code raises (`HolodeckException` on an unsupported OS,
`TimeoutError` on semaphore wait expiry, OS-level errors from the
`posix_ipc` / `win32event` layers).
-/

namespace Holodeck

/-- Association-list lookup, first match wins (models Python dict access). -/
def lookupL {κ α : Type} [DecidableEq κ] : List (κ × α) → κ → Option α
  | [], _ => none
  | (k, v) :: t, k' => if k = k' then some v else lookupL t k'

/-- Association-list insert/replace (models Python dict assignment: replaces
in place if the key is present, otherwise appends at the end). -/
def insertL {κ α : Type} [DecidableEq κ] : List (κ × α) → κ → α → List (κ × α)
  | [], k, v => [(k, v)]
  | (k', v') :: t, k, v =>
      if k' = k then (k, v) :: t else (k', v') :: insertL t k v

/-- Association-list removal of a key (models Python `del d[k]`). -/
def removeL {κ α : Type} [DecidableEq κ] : List (κ × α) → κ → List (κ × α)
  | [], _ => []
  | (k', v') :: t, k => if k' = k then t else (k', v') :: removeL t k

@[simp] theorem lookupL_nil {κ α : Type} [DecidableEq κ] (k : κ) :
    lookupL ([] : List (κ × α)) k = none := rfl

@[simp] theorem lookupL_insertL_self {κ α : Type} [DecidableEq κ]
    (l : List (κ × α)) (k : κ) (v : α) : lookupL (insertL l k v) k = some v := by
  induction l with
  | nil => simp [insertL, lookupL]
  | cons hd t ih =>
      obtain ⟨k', v'⟩ := hd
      by_cases h : k' = k
      · simp [insertL, h, lookupL]
      · simp [insertL, h, lookupL, ih]

@[simp] theorem lookupL_insertL_ne {κ α : Type} [DecidableEq κ]
    (l : List (κ × α)) (k k' : κ) (v : α) (h : k ≠ k') :
    lookupL (insertL l k v) k' = lookupL l k' := by
  induction l with
  | nil => simp [insertL, lookupL, h]
  | cons hd t ih =>
      obtain ⟨k₀, v₀⟩ := hd
      by_cases hk : k₀ = k
      · subst hk; simp [insertL, lookupL, h]
      · simp [insertL, hk, lookupL, ih]

@[simp] theorem lookupL_removeL_ne {κ α : Type} [DecidableEq κ]
    (l : List (κ × α)) (k k' : κ) (h : k ≠ k') :
    lookupL (removeL l k) k' = lookupL l k' := by
  induction l with
  | nil => simp [removeL]
  | cons hd t ih =>
      obtain ⟨k₀, v₀⟩ := hd
      by_cases hk : k₀ = k
      · subst hk; simp [removeL, lookupL, h]
      · simp [removeL, hk, lookupL, ih]

/-- The numpy dtypes that cross the holodeck shared-memory boundary. -/
inductive Dtype : Type
  | float32
  | float64
  | int32
  | uint8
deriving DecidableEq, Repr

/-- Byte width of one element (`np.dtype(...).itemsize`). -/
def Dtype.itemsize : Dtype → Nat
  | .float32 => 4
  | .float64 => 8
  | .int32 => 4
  | .uint8 => 1

/-- Number of elements of an array of the given shape (row-major product of
the dimension sizes). -/
def numel (shape : List Nat) : Nat := shape.foldr (· * ·) 1

/-- One live incarnation of a named OS shared-memory segment.  `gen` is a
creation counter distinguishing successive segments created under the same
name; a view is a zero-copy alias of one particular incarnation.  `bytes` is
the allocated size; `data` the element contents (one abstract machine word
per array element, capturing bit-for-bit contents). -/
structure SegInstance : Type where
  gen : Nat
  bytes : Nat
  data : List Nat
deriving DecidableEq, Repr

/-- State of one named OS semaphore: whether its name is still linked in the
OS namespace, and its current count. -/
structure SemState : Type where
  linked : Bool
  count : Nat
deriving DecidableEq, Repr

/-- The OS-visible state of one session: the shared-memory segments (keyed by
buffer key — the real OS object name is a fixed prefix concatenated with the
key and the session uuid, injective in the key for a fixed session), a
creation counter for fresh segment incarnations, and the two named
semaphores `HOLODECK_SEMAPHORE_SERVER<uuid>` / `HOLODECK_SEMAPHORE_CLIENT<uuid>`. -/
structure World : Type where
  segs : List (String × SegInstance)
  nextGen : Nat
  semServer : SemState
  semClient : SemState
deriving DecidableEq, Repr

/-- The numpy-array view handle returned by `Shmem(...)`/`malloc`: the
registry entries of `HolodeckClient._memory`.  A view aliases the segment
incarnation `gen` registered under `key`; `shape`/`dtype` are the attributes
`malloc` compares on lines 135-136 of `holodeckclient.py`. -/
structure Shmem : Type where
  key : String
  shape : List Nat
  dtype : Dtype
  uuid : String
  gen : Nat
deriving DecidableEq, Repr

/-- Which backend family `__init__` installed (the `_get_semaphore_fn` /
`_release_semaphore_fn` / `unlink` triple). -/
inductive Backend : Type
  | windows
  | posix
deriving DecidableEq, Repr

/-- The client-process state of `HolodeckClient`: mirrors the attributes the
constructor sets.  `timeout` is `self.timeout` with `none` standing for an
unbounded wait (`win32event.INFINITE` on Windows, Python `None` on POSIX).
`handlesClosed` records that `posix_unlink` has closed the process's
semaphore handles. -/
structure ClientState : Type where
  uuid : String
  backend : Backend
  shouldTimeout : Bool
  timeout : Option Nat
  memory : List (String × Shmem)
  handlesClosed : Bool
deriving DecidableEq, Repr

/-- Modelled from the spec: `holodeck/shmem.py` is absent from the sources.
Per the spec's allocation contract, constructing a `Shmem(key, shape, dtype,
uuid)` creates the named segment sized exactly `shape × element_size`
(zero-filled), unlinking and replacing any existing segment of that name —
prior views of the old incarnation become invalid.  The fresh incarnation
takes the next creation counter. -/
def mkShmem (key : String) (shape : List Nat) (dtype : Dtype) (uuid : String)
    (w : World) : Shmem × World :=
  let g := w.nextGen
  let seg : SegInstance :=
    ⟨g, numel shape * dtype.itemsize, List.replicate (numel shape) 0⟩
  (⟨key, shape, dtype, uuid, g⟩,
   { w with segs := insertL w.segs key seg, nextGen := g + 1 })

/-- Whether a view still aliases a live segment: true iff the OS segment
registered under the view's key is the very incarnation the view was created
over.  After that incarnation is unlinked (reallocation or teardown), the
view is invalid. -/
def viewValid (w : World) (v : Shmem) : Bool :=
  match lookupL w.segs v.key with
  | some seg => seg.gen = v.gen
  | none => false

/-- Modelled from the spec: writing an array of values through a zero-copy
view stores them in the backing segment, provided the view is still valid
(writes through an invalidated view are undefined and modelled as lost). -/
def writeView (w : World) (v : Shmem) (vals : List Nat) : World :=
  match lookupL w.segs v.key with
  | some seg =>
      if seg.gen = v.gen then
        { w with segs := insertL w.segs v.key { seg with data := vals } }
      else w
  | none => w

/-- Modelled from the spec: reading through a zero-copy view yields the
backing segment's current contents when the view is valid. -/
def readView (w : World) (v : Shmem) : Option (List Nat) :=
  match lookupL w.segs v.key with
  | some seg => if seg.gen = v.gen then some seg.data else none
  | none => none

/-- Embedding of `HolodeckClient.malloc` (holodeckclient.py lines 121-140): if `key` is
not registered, or is registered with a different shape or dtype, construct
a fresh `Shmem` and store it in `self._memory[key]`; then return
`self._memory[key].np_array`. -/
def malloc (c : ClientState) (w : World) (key : String) (shape : List Nat)
    (dtype : Dtype) : ClientState × World × Shmem :=
  match lookupL c.memory key with
  | some sh =>
      if sh.shape = shape ∧ sh.dtype = dtype then (c, w, sh)
      else
        let p := mkShmem key shape dtype c.uuid w
        ({ c with memory := insertL c.memory key p.1 }, p.2, p.1)
  | none =>
      let p := mkShmem key shape dtype c.uuid w
      ({ c with memory := insertL c.memory key p.1 }, p.2, p.1)

/-- The error taxonomy, using the spec's names for the exceptions the code
raises: `timeoutError` is Python's `TimeoutError`; `unsupportedOS` is the
`HolodeckException("Currently unsupported os: ...")` of `__init__`;
`initializationError` is the library error raised when opening a named
semaphore that does not exist; `osError` covers other OS-layer failures
(`posix_ipc.ExistentialError` and kin); `stateError` is the spec's
`StateError` and is included so that claims about it are statable — the
code never raises it. -/
inductive HError : Type
  | timeoutError
  | unsupportedOS (osname : String)
  | initializationError
  | osError (msg : String)
  | stateError
deriving DecidableEq, Repr

/-- Result of a non-blocking client operation, carrying the post-state also
on error (the Python exceptions unwind without undoing side effects). -/
inductive Res (α : Type) : Type
  | ok (a : α)
  | err (e : HError) (a : α)
deriving DecidableEq, Repr

/-- Result of a potentially blocking wait: success, a raised error, or an
indefinitely blocked caller (the state is the unchanged state observed while
blocked / at the raise site). -/
inductive AcqRes (α : Type) : Type
  | ok (a : α)
  | err (e : HError) (a : α)
  | blocks (a : α)
deriving DecidableEq, Repr

/-- The host OS family as reported by `os.name`, refined on POSIX by whether
the platform's `sem_timedwait` works (`true` on Linux, `false` on OSX — the
comment at holodeckclient.py lines 86-87).  `other s` is any other `os.name`. -/
inductive OSFamily : Type
  | nt
  | posix (timedWait : Bool)
  | other (osname : String)
deriving DecidableEq, Repr

/-- Outcome of the OS-level semaphore wait primitive on a semaphore with the
given count: a positive count is consumed immediately; otherwise an
unbounded wait blocks, and a bounded wait expires only on a platform whose
timed wait works — where it does not (OSX `sem_timedwait`), the bound is
ignored and the wait blocks. -/
inductive WaitOutcome : Type
  | ok
  | expired
  | blocksForever
deriving DecidableEq, Repr

/-- OS semaphore wait semantics (`win32event.WaitForSingleObject` /
`posix_ipc.Semaphore.acquire`). -/
def semWaitOutcome (count : Nat) (timeout : Option Nat) (timedWaitOS : Bool) :
    WaitOutcome :=
  if 0 < count then .ok
  else
    match timeout with
    | none => .blocksForever
    | some _ => if timedWaitOS then .expired else .blocksForever

/-- Embedding of `HolodeckClient.__init__` (lines 18-40) composed with the backend
initializers: on `os.name == "nt"` install the Windows backend with
`timeout = 3 min` in ms when `should_timeout` else `INFINITE`; on
`"posix"` open the two named semaphores (the library raises when one does
not exist — the peer must create them first) and set `timeout = 180 s` when
`should_timeout` else `None`; on any other `os.name` raise the
unsupported-OS `HolodeckException`.  The POSIX branch stores the same state
whether or not the platform's timed wait works: the code never inspects
that.  Windows `OpenSemaphore` likewise fails when the named object is
absent. -/
def clientInit (os : OSFamily) (uuid : String) (shouldTimeout : Bool)
    (w : World) : Except HError ClientState :=
  match os with
  | .nt =>
      if w.semServer.linked ∧ w.semClient.linked then
        .ok ⟨uuid, .windows, shouldTimeout,
             if shouldTimeout then some 180000 else none, [], false⟩
      else .error .initializationError
  | .posix _ =>
      if w.semServer.linked ∧ w.semClient.linked then
        .ok ⟨uuid, .posix, shouldTimeout,
             if shouldTimeout then some 180 else none, [], false⟩
      else .error .initializationError
  | .other s => .error (.unsupportedOS s)

/-- Embedding of `HolodeckClient.acquire` (lines 113-115): wait on semaphore 2 (the
CLIENT semaphore) via the installed backend function.
`windows_acquire_semaphore` raises `TimeoutError` when the wait does not
return `WAIT_OBJECT_0`; `posix_acquire_semaphore` translates
`posix_ipc.BusyError` into `TimeoutError`, and a wait on a closed POSIX
handle raises an OS-level error.  Neither branch consults any torn-down
flag. -/
def acquire (timedWaitOS : Bool) (c : ClientState) (w : World) :
    AcqRes (ClientState × World) :=
  match c.backend with
  | .windows =>
      match semWaitOutcome w.semClient.count c.timeout true with
      | .ok => .ok (c, { w with semClient := { w.semClient with count := w.semClient.count - 1 } })
      | .expired => .err .timeoutError (c, w)
      | .blocksForever => .blocks (c, w)
  | .posix =>
      if c.handlesClosed then .err (.osError "semaphore is closed") (c, w)
      else
        match semWaitOutcome w.semClient.count c.timeout timedWaitOS with
        | .ok => .ok (c, { w with semClient := { w.semClient with count := w.semClient.count - 1 } })
        | .expired => .err .timeoutError (c, w)
        | .blocksForever => .blocks (c, w)

/-- Embedding of `HolodeckClient.release` (lines 117-119): release semaphore 1 (the
SERVER semaphore) via the installed backend function.  Releasing never
blocks; a POSIX release on a closed handle raises an OS-level error.
Neither branch consults any torn-down flag. -/
def release (c : ClientState) (w : World) : Res (ClientState × World) :=
  match c.backend with
  | .windows =>
      .ok (c, { w with semServer := { w.semServer with count := w.semServer.count + 1 } })
  | .posix =>
      if c.handlesClosed then .err (.osError "semaphore is closed") (c, w)
      else .ok (c, { w with semServer := { w.semServer with count := w.semServer.count + 1 } })

/-- Observable teardown actions, in the order `unlink` performs them. -/
inductive TDEvent : Type
  | closeSem1
  | closeSem2
  | unlinkSem1
  | unlinkSem2
  | unlinkBuf (key : String)
deriving DecidableEq, Repr

/-- The buffer loop of `posix_unlink` (lines 105-107): for each registered
key, `self._memory[key].unlink()` then `del self._memory[key]`.  Unlinking
a `Shmem` removes its named OS segment (spec-modelled, `shmem.py` absent);
unlinking a name no longer present raises an OS error, which propagates —
there is no try/except — leaving the unprocessed registry entries in
place. -/
def unlinkBuffers : List (String × Shmem) → World → List TDEvent →
    Res (List (String × Shmem) × World × List TDEvent)
  | [], w, evs => .ok ([], w, evs)
  | (k, sh) :: rest, w, evs =>
      match lookupL w.segs k with
      | some _ =>
          unlinkBuffers rest { w with segs := removeL w.segs k }
            (evs ++ [TDEvent.unlinkBuf k])
      | none => .err (.osError "shm: no such segment") ((k, sh) :: rest, w, evs)

/-- Embedding of `posix_unlink` (lines 100-107), in source order: close both semaphore
handles, `posix_ipc.unlink_semaphore` on each semaphore name (raises an OS
error when the name is no longer linked, e.g. on a second teardown), then
unlink and deregister every buffer.  No exception is caught anywhere in the
body. -/
def posixUnlink (c : ClientState) (w : World) :
    Res (ClientState × World × List TDEvent) :=
  if w.semServer.linked then
    if w.semClient.linked then
      match unlinkBuffers c.memory
          { w with semServer := ⟨false, w.semServer.count⟩,
                   semClient := ⟨false, w.semClient.count⟩ }
          [.closeSem1, .closeSem2, .unlinkSem1, .unlinkSem2] with
      | .ok (m, w3, evs) =>
          .ok ({ c with handlesClosed := true, memory := m }, w3, evs)
      | .err e (m, w3, evs) =>
          .err e ({ c with handlesClosed := true, memory := m }, w3, evs)
    else
      .err (.osError "sem: no such semaphore")
        ({ c with handlesClosed := true },
         { w with semServer := ⟨false, w.semServer.count⟩ },
         [.closeSem1, .closeSem2, .unlinkSem1])
  else
    .err (.osError "sem: no such semaphore")
      ({ c with handlesClosed := true }, w, [.closeSem1, .closeSem2])

/-- Dispatch of `self.unlink` as installed per backend: `windows_unlink` (lines 69-70)
is `pass` — it touches nothing and raises nothing; the POSIX backend runs
`posix_unlink`. -/
def teardown (c : ClientState) (w : World) :
    Res (ClientState × World × List TDEvent) :=
  match c.backend with
  | .windows => .ok (c, w, [])
  | .posix => posixUnlink c w

/-- The simulated peer's side of the rendezvous: wait on the SERVER
semaphore (available only when the client has released). -/
def peerAcquire (w : World) : Option World :=
  if 0 < w.semServer.count then
    some { w with semServer := { w.semServer with count := w.semServer.count - 1 } }
  else none

/-- The simulated peer reads the named segment's current contents. -/
def peerRead (w : World) (key : String) : Option (List Nat) :=
  (lookupL w.segs key).map SegInstance.data

/-- The simulated peer writes values into the named segment (no-op if the
segment does not exist). -/
def peerWrite (w : World) (key : String) (vals : List Nat) : World :=
  match lookupL w.segs key with
  | some seg => { w with segs := insertL w.segs key { seg with data := vals } }
  | none => w

/-- The simulated peer signals the client by releasing the CLIENT
semaphore. -/
def peerRelease (w : World) : World :=
  { w with semClient := { w.semClient with count := w.semClient.count + 1 } }

/-- A fresh session's OS state: both semaphores created by the peer (linked,
count 0), no shared-memory segments yet. -/
def initialWorld : World := ⟨[], 0, ⟨true, 0⟩, ⟨true, 0⟩⟩

/-- The POSIX client produced by `HolodeckClient("", should_timeout=False)`. -/
def posixClient : ClientState := ⟨"", .posix, false, none, [], false⟩

/-- The POSIX client produced by `HolodeckClient("", should_timeout=True)`:
`self.timeout = 180` seconds. -/
def posixClientTO : ClientState := ⟨"", .posix, true, some 180, [], false⟩

/-- The Windows client produced by `HolodeckClient("", should_timeout=False)`:
`self.timeout = win32event.INFINITE`. -/
def windowsClient : ClientState := ⟨"", .windows, false, none, [], false⟩

/-- The Windows client produced by `HolodeckClient("", should_timeout=True)`:
`self.timeout = 180000` milliseconds. -/
def windowsClientTO : ClientState := ⟨"", .windows, true, some 180000, [], false⟩

theorem posixClient_spec : clientInit (.posix true) "" false initialWorld = .ok posixClient := rfl

theorem posixClientTO_spec : clientInit (.posix true) "" true initialWorld = .ok posixClientTO := rfl

theorem windowsClient_spec : clientInit .nt "" false initialWorld = .ok windowsClient := rfl

theorem windowsClientTO_spec : clientInit .nt "" true initialWorld = .ok windowsClientTO := rfl

/-- The POSIX client state after a first teardown: semaphore handles closed,
registry emptied. -/
def tornPosixClient : ClientState := ⟨"", .posix, false, none, [], true⟩

/-- The OS state after a first teardown of a fresh session: both semaphore
names unlinked. -/
def tornWorld : World := ⟨[], 0, ⟨false, 0⟩, ⟨false, 0⟩⟩

theorem removeL_sublist {κ α : Type} [DecidableEq κ] (l : List (κ × α)) (k : κ) :
    List.Sublist (removeL l k) l := by
  induction l with
  | nil => simp [removeL]
  | cons hd t ih =>
      obtain ⟨k', v'⟩ := hd
      show List.Sublist (if k' = k then t else (k', v') :: removeL t k) ((k', v') :: t)
      by_cases h : k' = k
      · rw [if_pos h]; exact List.sublist_cons_self _ _
      · rw [if_neg h]; exact List.Sublist.cons₂ (k', v') ih

theorem lookupL_eq_none_of_not_mem {κ α : Type} [DecidableEq κ]
    (l : List (κ × α)) (k : κ) (h : k ∉ l.map Prod.fst) : lookupL l k = none := by
  induction l with
  | nil => rfl
  | cons hd t ih =>
      obtain ⟨k', v'⟩ := hd
      simp only [List.map_cons, List.mem_cons, not_or] at h
      simp [lookupL, Ne.symm h.1, ih h.2]

theorem lookupL_removeL_self {κ α : Type} [DecidableEq κ]
    (l : List (κ × α)) (k : κ) (hnd : (l.map Prod.fst).Nodup) :
    lookupL (removeL l k) k = none := by
  induction l with
  | nil => rfl
  | cons hd t ih =>
      obtain ⟨k', v'⟩ := hd
      simp only [List.map_cons, List.nodup_cons] at hnd
      by_cases h : k' = k
      · subst h
        simpa [removeL] using lookupL_eq_none_of_not_mem t k' hnd.1
      · simp [removeL, h, lookupL, ih hnd.2]

/-- Outcome of the buffer loop of `posix_unlink` when every registered
buffer's segment is still present and the key sets are duplicate-free: it
succeeds, emits one `unlinkBuf` event per registry entry in order, empties
the registry, removes every registered segment, never creates segments, and
leaves the semaphores and the generation counter alone. -/
theorem unlinkBuffers_ok (mem : List (String × Shmem)) :
    ∀ (w : World) (evs : List TDEvent),
    (∀ p ∈ mem, (lookupL w.segs p.1).isSome) →
    (mem.map Prod.fst).Nodup → (w.segs.map Prod.fst).Nodup →
    ∃ w', unlinkBuffers mem w evs =
        .ok ([], w', evs ++ mem.map (fun p => TDEvent.unlinkBuf p.1)) ∧
      (∀ p ∈ mem, lookupL w'.segs p.1 = none) ∧
      (∀ k₀, lookupL w.segs k₀ = none → lookupL w'.segs k₀ = none) ∧
      w'.nextGen = w.nextGen ∧ w'.semServer = w.semServer ∧
      w'.semClient = w.semClient := by
  induction mem with
  | nil =>
      intro w evs _ _ _
      exact ⟨w, by simp [unlinkBuffers], by simp, fun _ h => h, rfl, rfl, rfl⟩
  | cons hd rest ih =>
      intro w evs hpres hndm hnds
      obtain ⟨k, sh⟩ := hd
      obtain ⟨seg, hseg⟩ := Option.isSome_iff_exists.mp (hpres (k, sh) (by simp))
      simp only [List.map_cons, List.nodup_cons] at hndm
      set w₁ : World := { w with segs := removeL w.segs k } with hw₁
      have hpres' : ∀ p ∈ rest, (lookupL w₁.segs p.1).isSome := by
        intro p hp
        have hk : k ≠ p.1 := fun hkp => hndm.1 (hkp ▸ List.mem_map_of_mem Prod.fst hp)
        rw [hw₁]
        simpa [lookupL_removeL_ne _ _ _ hk] using hpres p (List.mem_cons_of_mem _ hp)
      have hnds' : (w₁.segs.map Prod.fst).Nodup :=
        hnds.sublist ((removeL_sublist w.segs k).map Prod.fst)
      obtain ⟨w', hrun, hrest, hmono, hgen, hsrv, hcli⟩ :=
        ih w₁ (evs ++ [TDEvent.unlinkBuf k]) hpres' hndm.2 hnds'
      refine ⟨w', ?_, ?_, ?_, hgen, hsrv, hcli⟩
      · simp only [unlinkBuffers, hseg]
        rw [hrun]
        simp
      · intro p hp
        rcases List.mem_cons.mp hp with h | h
        · subst h
          exact hmono _ (by rw [hw₁]; exact lookupL_removeL_self _ _ hnds)
        · exact hrest p h
      · intro k₀ h₀
        apply hmono
        rcases eq_or_ne k k₀ with hk | hk
        · rw [hw₁]; subst hk; exact lookupL_removeL_self _ _ hnds
        · rw [hw₁]; simpa [lookupL_removeL_ne _ _ _ hk] using h₀

/-- C4 counterexample: teardown is not idempotent on the POSIX backend.  On
the fresh session, the first `unlink()` succeeds; the second call raises an
OS error (`posix_ipc.unlink_semaphore` on the already-removed semaphore
name) instead of "performing no additional work and raising no error" — and
since nothing in `posix_unlink` is wrapped in try/except, the failure is
not suppressed. -/
theorem teardown_second_call_raises :
    teardown posixClient initialWorld =
      .ok (tornPosixClient, tornWorld,
           [.closeSem1, .closeSem2, .unlinkSem1, .unlinkSem2]) ∧
    teardown tornPosixClient tornWorld =
      .err (.osError "sem: no such semaphore")
        (tornPosixClient, tornWorld, [.closeSem1, .closeSem2]) := by
  exact ⟨rfl, rfl⟩

/-- C4 amended: on the Windows backend `unlink` is `pass`, so a second call
trivially performs no work and raises no error; on the POSIX backend a
second call raises the OS error from unlinking the already-unlinked
semaphore name, and — there being no try/except — the error aborts the
rest of the cleanup (no buffer-unlink event is ever emitted). -/
theorem teardown_idempotence_amended (c : ClientState) (w : World) :
    (c.backend = .windows → teardown c w = .ok (c, w, [])) ∧
    (c.backend = .posix → w.semServer.linked = false →
      teardown c w = .err (.osError "sem: no such semaphore")
        ({ c with handlesClosed := true }, w,
         [.closeSem1, .closeSem2])) := by
  constructor
  · intro h; simp [teardown, h]
  · intro h hl; simp [teardown, h, posixUnlink, hl]

/-- C4 amended witness: Windows teardown is a no-op; a POSIX teardown in the
already-torn-down session state errors. -/
theorem teardown_idempotence_amended_witness :
    teardown windowsClient initialWorld = .ok (windowsClient, initialWorld, []) ∧
    teardown tornPosixClient tornWorld =
      .err (.osError "sem: no such semaphore")
        ({ tornPosixClient with handlesClosed := true }, tornWorld,
         [.closeSem1, .closeSem2]) :=
  ⟨(teardown_idempotence_amended windowsClient initialWorld).1 rfl,
   (teardown_idempotence_amended tornPosixClient tornWorld).2 rfl rfl⟩

/-- A Windows session holding one registered buffer. -/
def windowsWithBuf : ClientState × World × Shmem :=
  malloc windowsClient initialWorld "cmd" [4] .float32

/-- C5 counterexample: on the Windows backend `unlink` is `pass` — teardown
unlinks nothing at all.  With one buffer registered, the buffer is still
registered and its segment still linked after teardown, refuting "on every
backend, teardown first unlinks every registered buffer and then both
semaphores". -/
theorem windows_teardown_leaves_buffers :
    teardown windowsWithBuf.1 windowsWithBuf.2.1 =
      .ok (windowsWithBuf.1, windowsWithBuf.2.1, []) ∧
    lookupL windowsWithBuf.1.memory "cmd" = some windowsWithBuf.2.2 ∧
    viewValid windowsWithBuf.2.1 windowsWithBuf.2.2 = true := by
  exact ⟨rfl, rfl, rfl⟩

/-- C5 amended: on the POSIX backend teardown closes and unlinks both
semaphores FIRST and only then unlinks the registered buffers (the reverse
of the claimed order, as the emitted event sequence shows); afterwards the
registry is empty, no registered segment remains linked, and both semaphore
names are unlinked.  On the Windows backend teardown is a no-op that
unlinks nothing. -/
theorem teardown_unlink_order_amended (c : ClientState) (w : World)
    (hpos : c.backend = .posix)
    (hs : w.semServer.linked = true) (hc : w.semClient.linked = true)
    (hpres : ∀ p ∈ c.memory, (lookupL w.segs p.1).isSome)
    (hndm : (c.memory.map Prod.fst).Nodup)
    (hnds : (w.segs.map Prod.fst).Nodup) :
    ∃ w', teardown c w =
        .ok ({ c with handlesClosed := true, memory := [] }, w',
             [.closeSem1, .closeSem2, .unlinkSem1, .unlinkSem2] ++
               c.memory.map (fun p => TDEvent.unlinkBuf p.1)) ∧
      (∀ p ∈ c.memory, lookupL w'.segs p.1 = none) ∧
      w'.semServer.linked = false ∧ w'.semClient.linked = false := by
  obtain ⟨w', hrun, hnone, _, _, hsrv, hcli⟩ :=
    unlinkBuffers_ok c.memory
      { w with semServer := ⟨false, w.semServer.count⟩,
               semClient := ⟨false, w.semClient.count⟩ }
      [.closeSem1, .closeSem2, .unlinkSem1, .unlinkSem2] hpres hndm hnds
  refine ⟨w', ?_, hnone, ?_, ?_⟩
  · simp only [teardown, hpos, posixUnlink, hs, hc, if_true]
    rw [hrun]
  · rw [hsrv]
  · rw [hcli]

/-- C5 amended witness: tearing down a fresh POSIX session holding one
allocated buffer. -/
theorem teardown_unlink_order_amended_witness :
    let r := malloc posixClient initialWorld "cmd" [4] Dtype.float32
    ∃ w', teardown r.1 r.2.1 =
        .ok ({ r.1 with handlesClosed := true, memory := [] }, w',
             [.closeSem1, .closeSem2, .unlinkSem1, .unlinkSem2] ++
               r.1.memory.map (fun p => TDEvent.unlinkBuf p.1)) ∧
      (∀ p ∈ r.1.memory, lookupL w'.segs p.1 = none) ∧
      w'.semServer.linked = false ∧ w'.semClient.linked = false :=
  teardown_unlink_order_amended
    (malloc posixClient initialWorld "cmd" [4] Dtype.float32).1
    (malloc posixClient initialWorld "cmd" [4] Dtype.float32).2.1
    rfl rfl rfl (by decide) (by decide) (by decide)

/-- C6 counterexample: handshake calls after teardown do not fail with
`StateError`.  On the Windows backend teardown is a no-op and a subsequent
`release` simply succeeds (the code never checks any torn-down state and
never raises the spec's `StateError`). -/
theorem handshake_after_teardown_no_state_error :
    teardown windowsClient initialWorld =
      .ok (windowsClient, initialWorld, []) ∧
    release windowsClient initialWorld =
      .ok (windowsClient, ⟨[], 0, ⟨true, 1⟩, ⟨true, 0⟩⟩) := by
  exact ⟨rfl, rfl⟩

/-- C6 amended: the code guards no handshake call after teardown.  On the
Windows backend teardown leaves the state untouched, so `acquire`/`release`
behave exactly as before; on the POSIX backend they fail — but with the
OS-level closed-handle error, never with `StateError`. -/
theorem handshake_after_teardown_amended (tw : Bool) (c : ClientState)
    (w : World) :
    (c.backend = .windows → teardown c w = .ok (c, w, [])) ∧
    (c.backend = .posix → c.handlesClosed = true →
      acquire tw c w = .err (.osError "semaphore is closed") (c, w) ∧
      release c w = .err (.osError "semaphore is closed") (c, w)) := by
  constructor
  · intro h; simp [teardown, h]
  · intro h hcl
    exact ⟨by simp [acquire, h, hcl], by simp [release, h, hcl]⟩

/-- C6 amended witness: windows post-teardown release still works; posix
post-teardown handshake calls raise the closed-handle OS error. -/
theorem handshake_after_teardown_amended_witness :
    (teardown windowsClient initialWorld = .ok (windowsClient, initialWorld, [])) ∧
    acquire true tornPosixClient tornWorld =
      .err (.osError "semaphore is closed") (tornPosixClient, tornWorld) ∧
    release tornPosixClient tornWorld =
      .err (.osError "semaphore is closed") (tornPosixClient, tornWorld) :=
  ⟨(handshake_after_teardown_amended true windowsClient initialWorld).1 rfl,
   (handshake_after_teardown_amended true tornPosixClient tornWorld).2 rfl rfl⟩

/-- C2: `malloc(k, shape, dtype)` called a second time with identical
arguments hits the `key in self._memory` fast path — the registry and the
world are unchanged and the very same view is returned; no reallocation
occurs. -/
theorem malloc_idempotent (c : ClientState) (w : World) (k : String)
    (s : List Nat) (d : Dtype) :
    malloc (malloc c w k s d).1 (malloc c w k s d).2.1 k s d = malloc c w k s d := by
  cases h : lookupL c.memory k with
  | none => simp [malloc, h, mkShmem]
  | some sh =>
      by_cases hm : sh.shape = s ∧ sh.dtype = d
      · simp [malloc, h, hm]
      · simp [malloc, h, hm, mkShmem]

/-- C10: after `malloc(k, s, d)` the registry `self._memory` maps `k` to a
buffer whose shape is `s` and dtype is `d`, the returned view is exactly
that registry entry, and any subsequent `malloc` for a different key leaves
the entry untouched. -/
theorem malloc_registry_invariant (c : ClientState) (w : World) (k : String)
    (s : List Nat) (d : Dtype) (k' : String) (s' : List Nat) (d' : Dtype)
    (hk : k' ≠ k) :
    let r := malloc c w k s d
    ∃ sh, lookupL r.1.memory k = some sh ∧ sh.shape = s ∧ sh.dtype = d ∧
      r.2.2 = sh ∧
      lookupL (malloc r.1 r.2.1 k' s' d').1.memory k = some sh := by
  intro r
  have preserve : ∀ (c₁ : ClientState) (w₁ : World),
      lookupL (malloc c₁ w₁ k' s' d').1.memory k = lookupL c₁.memory k := by
    intro c₁ w₁
    cases h : lookupL c₁.memory k' with
    | none => simp [malloc, h, mkShmem, lookupL_insertL_ne _ _ _ _ hk]
    | some sh =>
        by_cases hm : sh.shape = s' ∧ sh.dtype = d'
        · simp [malloc, h, hm]
        · simp [malloc, h, hm, mkShmem, lookupL_insertL_ne _ _ _ _ hk]
  cases h : lookupL c.memory k with
  | none =>
      refine ⟨⟨k, s, d, c.uuid, w.nextGen⟩, ?_, rfl, rfl, ?_, ?_⟩
      · simp [r, malloc, h, mkShmem]
      · simp [r, malloc, h, mkShmem]
      · rw [preserve]; simp [r, malloc, h, mkShmem]
  | some sh =>
      by_cases hm : sh.shape = s ∧ sh.dtype = d
      · refine ⟨sh, ?_, hm.1, hm.2, ?_, ?_⟩
        · simp [r, malloc, h, hm]
        · simp [r, malloc, h, hm]
        · rw [preserve]; simp [r, malloc, h, hm]
      · refine ⟨⟨k, s, d, c.uuid, w.nextGen⟩, ?_, rfl, rfl, ?_, ?_⟩
        · simp [r, malloc, h, hm, mkShmem]
        · simp [r, malloc, h, hm, mkShmem]
        · rw [preserve]; simp [r, malloc, h, hm, mkShmem]

/-- C10 witness: the invariant at a concrete allocation. -/
theorem malloc_registry_invariant_witness :
    let r := malloc posixClient initialWorld "cmd" [4] .float32
    ∃ sh, lookupL r.1.memory "cmd" = some sh ∧ sh.shape = [4] ∧
      sh.dtype = .float32 ∧ r.2.2 = sh ∧
      lookupL (malloc r.1 r.2.1 "state" [2] .float32).1.memory "cmd" = some sh :=
  malloc_registry_invariant posixClient initialWorld "cmd" [4] .float32
    "state" [2] .float32 (by decide)

/-- C1: reallocation on mismatch.  With `k` freshly allocated at shape `sA`,
dtype `dA`, a second `malloc` for `k` with a different shape or dtype
replaces the registry entry and the OS segment: the old view no longer
aliases a live segment (invalid), the returned view aliases the new
segment, and the new segment is sized for `sB` (a fresh zero-filled region
of `numel sB × itemsize dB` bytes). -/
theorem malloc_realloc_on_mismatch (c : ClientState) (w : World) (k : String)
    (sA sB : List Nat) (dA dB : Dtype)
    (hfresh : lookupL c.memory k = none) (hne : sB ≠ sA ∨ dB ≠ dA) :
    let r1 := malloc c w k sA dA
    let r2 := malloc r1.1 r1.2.1 k sB dB
    viewValid r2.2.1 r1.2.2 = false ∧
    viewValid r2.2.1 r2.2.2 = true ∧
    r2.2.2.gen ≠ r1.2.2.gen ∧
    lookupL r2.2.1.segs k =
      some ⟨r2.2.2.gen, numel sB * dB.itemsize, List.replicate (numel sB) 0⟩ := by
  intro r1 r2
  have hne' : ¬ (sA = sB ∧ dA = dB) := by
    rcases hne with h | h
    · exact fun hc => h hc.1.symm
    · exact fun hc => h hc.2.symm
  refine ⟨?_, ?_, ?_, ?_⟩
  · simp [r1, r2, malloc, hfresh, mkShmem, hne', viewValid]
  · simp [r1, r2, malloc, hfresh, mkShmem, hne', viewValid]
  · simp [r1, r2, malloc, hfresh, mkShmem, hne']
  · simp [r1, r2, malloc, hfresh, mkShmem, hne']

/-- C3: with a bounded timeout (`should_timeout` set, so `self.timeout` is a
finite value) and no peer signal pending (client semaphore count 0), on a
platform whose timed wait works (always on Windows; on POSIX where
`sem_timedwait` is available), `acquire` raises `TimeoutError` and leaves
the client and the OS state exactly as they were — the registry is
untouched and the coordinator is still waiting on the peer semaphore — and
a retry after the peer signals succeeds. -/
theorem acquire_timeout_raises (tw : Bool) (c : ClientState) (w : World) (t : Nat)
    (hopen : c.handlesClosed = false)
    (hbound : c.timeout = some t)
    (hsupp : c.backend = .windows ∨ tw = true)
    (hzero : w.semClient.count = 0) :
    acquire tw c w = .err .timeoutError (c, w) ∧
    ∃ w', acquire tw c (peerRelease w) = .ok (c, w') := by
  cases hb : c.backend with
  | windows =>
      constructor
      · simp [acquire, hb, semWaitOutcome, hzero, hbound]
      · exact ⟨w, by simp [acquire, hb, semWaitOutcome, peerRelease]⟩
  | posix =>
      have htw : tw = true := by
        rcases hsupp with h | h
        · rw [hb] at h; cases h
        · exact h
      constructor
      · simp [acquire, hb, hopen, htw, semWaitOutcome, hzero, hbound]
      · exact ⟨w, by simp [acquire, hb, hopen, semWaitOutcome, peerRelease]⟩

/-- C3 witness: a Windows client with `should_timeout=True` waiting on an
unsignalled client semaphore. -/
theorem acquire_timeout_raises_witness :
    acquire false windowsClientTO initialWorld =
      .err .timeoutError (windowsClientTO, initialWorld) ∧
    ∃ w', acquire false windowsClientTO (peerRelease initialWorld) =
      .ok (windowsClientTO, w') :=
  acquire_timeout_raises false windowsClientTO initialWorld 180000
    rfl rfl (Or.inl rfl) rfl

/-- C8: `__init__` raises the unsupported-OS `HolodeckException` (the spec's
`UnsupportedPlatformError`) exactly when `os.name` is outside the two
supported families; on `nt` or `posix` construction never produces that
error (it may fail differently, e.g. when a semaphore does not yet exist). -/
theorem clientInit_platform_check (s uuid : String) (st : Bool) (w : World)
    (os : OSFamily) (hsupp : os = .nt ∨ ∃ tw, os = .posix tw) :
    clientInit (.other s) uuid st w = .error (.unsupportedOS s) ∧
    ∀ s', clientInit os uuid st w ≠ .error (.unsupportedOS s') := by
  refine ⟨rfl, ?_⟩
  intro s'
  rcases hsupp with h | ⟨tw, h⟩ <;> subst h <;>
    · simp only [clientInit]
      split <;> simp

/-- C8 witness: construction on an unsupported OS name versus on `nt`. -/
theorem clientInit_platform_check_witness :
    clientInit (.other "java") "" false initialWorld =
      .error (.unsupportedOS "java") ∧
    ∀ s', clientInit .nt "" false initialWorld ≠ .error (.unsupportedOS s') :=
  clientInit_platform_check "java" "" false initialWorld .nt (Or.inl rfl)

/-- C7 counterexample: no queryable `supports_timeout` capability exists.
`__posix_init__` stores identical client state whether or not the
platform's `sem_timedwait` works, so no Boolean query of the client state
can report whether a bounded `acquire` will actually time out: any
candidate flag would have to be simultaneously `true` (timed wait works:
`acquire` raises `TimeoutError`) and `false` (OSX: the same state blocks
forever).  The claimed flag is therefore refuted at the concrete client
`HolodeckClient("", should_timeout=True)` on POSIX. -/
theorem no_supports_timeout_capability :
    ¬ ∃ f : ClientState → Bool, ∀ tw : Bool,
      (f posixClientTO = true ↔
        acquire tw posixClientTO initialWorld =
          .err .timeoutError (posixClientTO, initialWorld)) := by
  rintro ⟨f, hf⟩
  have h1 : f posixClientTO = true := (hf true).mpr (by decide)
  have h2 := (hf false).mp h1
  exact absurd h2 (by decide)

/-- C7 amended: the POSIX backend accepts a requested timeout that has no
effect on a platform without working `sem_timedwait`: construction stores
the very same client state regardless of timed-wait support (so the
limitation is not exposed through any queryable capability — it is noted
only in a source comment), and on such a platform `acquire` with a bounded
timeout on an unsignalled semaphore blocks exactly like an unbounded wait
instead of raising `TimeoutError`. -/
theorem timeout_limitation_silently_masked (uuid : String) (st : Bool)
    (w : World) (tw tw' : Bool) (c : ClientState)
    (hb : c.backend = .posix) (ho : c.handlesClosed = false)
    (hz : w.semClient.count = 0) :
    clientInit (.posix tw) uuid st w = clientInit (.posix tw') uuid st w ∧
    acquire false c w = .blocks (c, w) := by
  refine ⟨rfl, ?_⟩
  cases ht : c.timeout <;> simp [acquire, hb, ho, semWaitOutcome, hz, ht]

/-- C7 amended witness: the timeout-requesting POSIX client on an
unsignalled fresh session. -/
theorem timeout_limitation_silently_masked_witness :
    clientInit (.posix true) "" true initialWorld =
      clientInit (.posix false) "" true initialWorld ∧
    acquire false posixClientTO initialWorld =
      .blocks (posixClientTO, initialWorld) :=
  timeout_limitation_silently_masked "" true initialWorld true false
    posixClientTO rfl rfl rfl

/-- C1 witness: reallocating `"cmd"` from shape `[4]`/float32 to
`[2, 2]`/float32 on a fresh session. -/
theorem malloc_realloc_on_mismatch_witness :
    let r1 := malloc posixClient initialWorld "cmd" [4] Dtype.float32
    let r2 := malloc r1.1 r1.2.1 "cmd" [2, 2] Dtype.float32
    viewValid r2.2.1 r1.2.2 = false ∧
    viewValid r2.2.1 r2.2.2 = true ∧
    r2.2.2.gen ≠ r1.2.2.gen ∧
    lookupL r2.2.1.segs "cmd" =
      some ⟨r2.2.2.gen, numel [2, 2] * Dtype.itemsize .float32,
            List.replicate (numel [2, 2]) 0⟩ :=
  malloc_realloc_on_mismatch posixClient initialWorld "cmd" [4] [2, 2]
    .float32 .float32 (by decide) (Or.inl (by decide))

/-- C9: the round trip.  On a fresh session (empty registry, open handles),
allocate buffers `B` and `C`, write the element values `V` through `B`'s
view and `release`; the peer's wait on the server semaphore succeeds and
its read of `B` yields exactly `V`; after the peer writes `W` into `C` and
signals the client semaphore, the coordinator's `acquire` returns
successfully and a read through `C`'s view yields exactly `W` — bit for
bit, on either backend and for any timeout configuration. -/
theorem round_trip (tw : Bool) (c : ClientState) (w : World) (kB kC : String)
    (sB sC : List Nat) (dB dC : Dtype) (V W : List Nat)
    (hmem : c.memory = []) (hopen : c.handlesClosed = false)
    (hk : kB ≠ kC) (_hV : V.length = numel sB) (_hW : W.length = numel sC) :
    let r1 := malloc c w kB sB dB
    let r2 := malloc r1.1 r1.2.1 kC sC dC
    let w3 := writeView r2.2.1 r1.2.2 V
    ∃ w4 w5 w8,
      release r2.1 w3 = .ok (r2.1, w4) ∧
      peerAcquire w4 = some w5 ∧
      peerRead w5 kB = some V ∧
      acquire tw r2.1 (peerRelease (peerWrite w5 kC W)) = .ok (r2.1, w8) ∧
      readView w8 r2.2.2 = some W := by
  intro r1 r2 w3
  refine ⟨{ w3 with semServer := ⟨w3.semServer.linked, w3.semServer.count + 1⟩ },
          w3, peerWrite w3 kC W, ?_, ?_, ?_, ?_, ?_⟩
  · cases hb : c.backend <;>
      simp [r1, r2, w3, malloc, mkShmem, hmem, release, hb, hopen,
            writeView, lookupL, insertL, hk, Ne.symm hk]
  · simp [peerAcquire]
  · simp [r1, r2, w3, malloc, mkShmem, hmem, peerRead, writeView,
          lookupL, insertL, hk, Ne.symm hk]
  · cases hb : c.backend <;>
      simp [r1, r2, w3, malloc, mkShmem, hmem, acquire, hb, hopen, peerRelease,
            peerWrite, writeView, semWaitOutcome, lookupL, insertL, hk, Ne.symm hk]
  · simp [r1, r2, w3, malloc, mkShmem, hmem, readView, peerWrite, writeView,
          lookupL, insertL, hk, Ne.symm hk]

/-- C9 witness: the spec's concrete scenario — keys `"cmd"` and `"state"`,
shape `[4]`, float32, command values `[0, 0, 2, 1000]`. -/
theorem round_trip_witness :
    let r1 := malloc posixClient initialWorld "cmd" [4] Dtype.float32
    let r2 := malloc r1.1 r1.2.1 "state" [4] Dtype.float32
    let w3 := writeView r2.2.1 r1.2.2 [0, 0, 2, 1000]
    ∃ w4 w5 w8,
      release r2.1 w3 = .ok (r2.1, w4) ∧
      peerAcquire w4 = some w5 ∧
      peerRead w5 "cmd" = some [0, 0, 2, 1000] ∧
      acquire true r2.1 (peerRelease (peerWrite w5 "state" [5, 6, 7, 8])) =
        .ok (r2.1, w8) ∧
      readView w8 r2.2.2 = some [5, 6, 7, 8] :=
  round_trip true posixClient initialWorld "cmd" "state" [4] [4]
    .float32 .float32 [0, 0, 2, 1000] [5, 6, 7, 8]
    rfl rfl (by decide) (by decide) (by decide)

end Holodeck
